import Mathlib

/-!
Verification of the agent orchestrator service (agent/orchestrator-service/main.go).

This file shallowly embeds the orchestrator's data model and control flow in
Lean.  Pure Go code (string handling, the per-iteration state machine, the
in-memory conversation store) is translated directly.  External effects are
modelled as oracle functions bundled in an `Env` record:

* every call to the text-completion collaborator (`geminiClient.Models.GenerateContent`)
  is an oracle keyed by the semantically relevant inputs of the call site
  (the prompt of each phase is a fixed template instantiated with exactly
  those inputs, and distinct phases use distinct templates, so keying each
  call site by its inputs loses no generality);
* the HTTP calls to the retrieval service and the MCP gateway are oracles
  returning either a transport/decode error or a decoded JSON object;
* the Go standard library `json.Unmarshal` is an oracle taking the text and
  the struct value it would decode into, returning the updated struct on
  success and `none` on a decode error.

Go `float64` values (confidences, scores) are modelled as `ℚ`: the code never
does arithmetic on them, only comparisons and pass-through, so exact rationals
are a faithful model of every value the claims mention.  Wall-clock durations
and timestamps are not modelled (they carry no logic); duration fields are 0.
Heterogeneous `map[string]interface{}` values are modelled as association
lists of a small value type covering every shape the orchestrator itself
constructs or inspects (strings, numbers, booleans); payloads it merely passes
through are opaque to all claims.
-/

namespace Orchestrator

/-- A JSON-ish value stored in a Go `map[string]interface{}`.  `int` models a
Go `int` stored directly in a map literal, `num` models a `float64` (JSON
numbers decode to `float64`); the Go type assertion `.(float64)` succeeds only
on the latter, `.(string)` only on `str`. -/
inductive JValue where
  | str (s : String)
  | int (n : Int)
  | num (q : ℚ)
  | bool (b : Bool)
  | null
  deriving DecidableEq

/-- A decoded JSON object / Go `map[string]interface{}`, as an association list. -/
def RMap := List (String × JValue)

instance : DecidableEq RMap := inferInstanceAs (DecidableEq (List (String × JValue)))

/-- Go map read `m[k]`. -/
def rlookup : RMap → String → Option JValue
  | [], _ => none
  | (k, v) :: rest, key => if k = key then some v else rlookup rest key

/-- Go map write `m[k] = v` (overwrites an existing binding). -/
def rmapSet (m : RMap) (k : String) (v : JValue) : RMap :=
  (k, v) :: m.filter (fun p => p.1 ≠ k)

/-- Go type assertion `x.(string)` with the zero value on failure, as in
`query, _ := params["query"].(string)`. -/
def goStr : Option JValue → String
  | some (.str s) => s
  | _ => ""

/-- Go type assertion `x.(float64)` with the zero value on failure, as in
`topK, _ := params["top_k"].(float64)`. -/
def goFloat : Option JValue → ℚ
  | some (.num q) => q
  | _ => 0

/-- Go `int(x)` truncation of a float64 toward zero. -/
def goTruncInt (q : ℚ) : Int := q.num.tdiv (q.den : Int)

/-- Go `strings.HasPrefix`. -/
def goStartsWith (s pre : String) : Bool := pre.data.isPrefixOf s.data

/-- Go `strings.HasSuffix`. -/
def goEndsWith (s suf : String) : Bool := suf.data.isSuffixOf s.data

/-- Go `strings.TrimPrefix`: drop `pre` when it is a leading substring, else
return `s` unchanged. -/
def goTrimLeading (s pre : String) : String :=
  if goStartsWith s pre then String.mk (s.data.drop pre.data.length) else s

/-- Go `strings.TrimSuffix`: drop `suf` when it is a trailing substring, else
return `s` unchanged. -/
def goTrimTrailing (s suf : String) : String :=
  if goEndsWith s suf then String.mk (s.data.take (s.data.length - suf.data.length)) else s

/-- Go `strings.TrimSpace` (restricted to ASCII whitespace, the only kind the
modelled strings contain). -/
def goTrimSpace (s : String) : String :=
  String.mk (((s.data.dropWhile Char.isWhitespace).reverse.dropWhile Char.isWhitespace).reverse)

/-- Outcome of one `GenerateContent` call: a transport error, a response with
no usable candidates, a response whose first candidate has no parts, or the
text of the first part. -/
inductive ModelResp where
  | transportErr (msg : String)
  | noCandidates
  | emptyParts
  | text (s : String)
  deriving DecidableEq

/-- `Verification` struct: the verdict of the answer verifier.  The Go zero
value (used as the `json.Unmarshal` target) is `⟨false, 0, ""⟩`. -/
structure Verification where
  IsComplete : Bool
  Confidence : ℚ
  MissingInfo : String
  deriving DecidableEq

/-- `Action` struct: one planned action.  The Go field `Type` is `Type'` here
(`Type` is reserved in Lean). -/
structure Action where
  Type' : String
  Description : String
  Parameters : RMap
  deriving DecidableEq

/-- `ExecutionPlan` struct. -/
structure ExecutionPlan where
  OriginalQuery : String
  RewrittenQueries : List String
  Actions : List Action
  Reasoning : String
  deriving DecidableEq

/-- `AgentStep` struct: one recorded step of the loop.  `Duration` is always 0
in the model (wall-clock time is not modelled). -/
structure AgentStep where
  StepNumber : Nat
  Type' : String
  Description : String
  Action : String
  Result : String
  Success : Bool
  Duration : ℚ
  deriving DecidableEq

/-- `AgentResponse` struct: the final result returned by the loop. -/
structure AgentResponse where
  ConversationID : String
  Query : String
  Answer : String
  Confidence : ℚ
  Iterations : Nat
  ToolsUsed : List String
  Sources : List String
  ProcessTime : ℚ
  Steps : List AgentStep
  NeedMoreInfo : Bool
  FollowUpQ : String
  deriving DecidableEq

/-- `AgentRequest` struct (after the handler filled in defaults: the handler
replaces `MaxIterations = 0` by 5 and an empty conversation id by a fresh
UUID before calling the loop). -/
structure AgentRequest where
  Query : String
  ConversationID : String
  MaxIterations : Nat
  deriving DecidableEq

/-- `Message` struct; capture-time timestamps are not modelled. -/
structure Message where
  Role : String
  Content : String
  deriving DecidableEq

/-- `Conversation` struct; `StartTime` is not modelled. -/
structure Conversation where
  ID : String
  Messages : List Message
  deriving DecidableEq

/-- The process-wide `conversations` map, as an association list. -/
def ConvMap := List (String × Conversation)

instance : DecidableEq ConvMap := inferInstanceAs (DecidableEq (List (String × Conversation)))

/-- Read of the `conversations` map. -/
def lookupConv : ConvMap → String → Option Conversation
  | [], _ => none
  | (k, c) :: rest, key => if k = key then some c else lookupConv rest key

/-- Write of the `conversations` map (insert or replace). -/
def setConv (m : ConvMap) (key : String) (c : Conversation) : ConvMap :=
  match m with
  | [] => [(key, c)]
  | (k, c') :: rest => if k = key then (key, c) :: rest else (k, c') :: setConv rest key c

/-- The external world of the orchestrator: one oracle per collaborator call
site plus the two `json.Unmarshal` call sites. -/
structure Env where
  /-- `GenerateContent` in `analyzeQuery`, keyed by the query. -/
  analyzeResp : String → ModelResp
  /-- `GenerateContent` in `createExecutionPlan`, keyed by the query. -/
  planResp : String → ModelResp
  /-- `json.Unmarshal(responseText, &plan)`: cleaned text and prior struct
  value in, updated struct out, `none` on a decode error. -/
  unmarshalPlan : String → ExecutionPlan → Option ExecutionPlan
  /-- HTTP POST to the retrieval service plus body decode, keyed by
  `(query, collection, top_k)`. -/
  searchRag : String → String → Int → Except String RMap
  /-- HTTP POST to the MCP gateway plus body decode, keyed by
  `(tool name, parameter map)`. -/
  callTool : String → RMap → Except String RMap
  /-- `GenerateContent` in `synthesizeAnswer`, keyed by the query and the
  gathered results (the prompt embeds exactly these). -/
  synthResp : String → List RMap → ModelResp
  /-- `GenerateContent` in `verifyAnswer`, keyed by the query and the draft
  answer (the prompt embeds exactly these; the results argument is unused
  by the Go prompt). -/
  verifyResp : String → String → ModelResp
  /-- `json.Unmarshal(responseText, &v)` for a `Verification`. -/
  unmarshalVerif : String → Verification → Option Verification

/-- Global `CONFIDENCE_THRESHOLD = 0.7`. -/
def CONFIDENCE_THRESHOLD : ℚ := mkRat 7 10

/-- The literal template prepended to the missing-info text when the
iteration cap is reached. -/
def followUpTemplate : String :=
  "I need more information to answer completely. Can you provide more context about: "

/-- `analyzeQuery`: absorbs a transport error into the static string
"Unable to analyze query"; an unusable response body yields
"Query analysis completed". -/
def analyzeQuery (env : Env) (query : String) : String :=
  match env.analyzeResp query with
  | .transportErr _ => "Unable to analyze query"
  | .noCandidates => "Query analysis completed"
  | .emptyParts => "Query analysis completed"
  | .text s => s

/-- The markdown-fence cleanup applied to model JSON before decoding:
`TrimPrefix "```json"`, `TrimPrefix "```"`, `TrimSuffix "```"`, `TrimSpace`,
in that order. -/
def cleanModelJson (s : String) : String :=
  goTrimSpace (goTrimTrailing (goTrimLeading (goTrimLeading s "```json") "```") "```")

/-- The `ExecutionPlan` value at the point of the `json.Unmarshal` call:
the Go zero value with `OriginalQuery` already assigned. -/
def initialPlan (query : String) : ExecutionPlan :=
  { OriginalQuery := query, RewrittenQueries := [], Actions := [], Reasoning := "" }

/-- The fallback plan built when the plan JSON does not decode: one
`search_rag` action against `regulatory_docs` with the original query and
`top_k = 5` (a Go `int` literal, hence `JValue.int`). -/
def defaultPlanFor (query : String) : ExecutionPlan :=
  { OriginalQuery := query
    RewrittenQueries := [query]
    Actions := [{ Type' := "search_rag"
                  Description := "Search knowledge base"
                  Parameters := [("query", .str query), ("collection", .str "regulatory_docs"),
                                 ("top_k", .int 5)] }]
    Reasoning := "Default plan: search knowledge base" }

/-- `createExecutionPlan`: a transport error or unusable response propagates
as a hard error; a text response is fence-cleaned and decoded, falling back
to `defaultPlanFor` on a decode error. -/
def createExecutionPlan (env : Env) (query : String) : Except String ExecutionPlan :=
  match env.planResp query with
  | .transportErr e => .error e
  | .noCandidates => .error "no response from model"
  | .emptyParts => .error "empty response"
  | .text s =>
      match env.unmarshalPlan (cleanModelJson s) (initialPlan query) with
      | some p => .ok p
      | none => .ok (defaultPlanFor query)

/-- `executeSearchRAG`: parameter extraction with Go zero-value defaults
(empty query → "default query", empty collection → "regulatory_docs",
`top_k = 0` → 5), then the retrieval call. -/
def executeSearchRAG (env : Env) (params : RMap) : Except String RMap :=
  let query := goStr (rlookup params "query")
  let collection := goStr (rlookup params "collection")
  let topK := goFloat (rlookup params "top_k")
  let query := if query = "" then "default query" else query
  let collection := if collection = "" then "regulatory_docs" else collection
  let topK := if topK = 0 then 5 else topK
  env.searchRag query collection (goTruncInt topK)

/-- `executeCallTool`: a missing tool name is an error (absorbed in-band by
the caller); otherwise the gateway call. -/
def executeCallTool (env : Env) (params : RMap) : Except String RMap :=
  let toolName := goStr (rlookup params "tool")
  if toolName = "" then .error "tool name required"
  else env.callTool toolName params

/-- The result map of one action in `executeActions`: dispatch by the action
kind; any error becomes an in-band failed map; `action_type` is stamped onto
every result. -/
def execOne (env : Env) (action : Action) : RMap :=
  let base : Except String RMap :=
    if action.Type' = "search_rag" then executeSearchRAG env action.Parameters
    else if action.Type' = "call_tool" then executeCallTool env action.Parameters
    else if action.Type' = "synthesize" then .ok [("status", .str "deferred")]
    else .error ("unknown action type: " ++ action.Type')
  match base with
  | .ok r => rmapSet r "action_type" (.str action.Type')
  | .error e => rmapSet [("error", .str e), ("status", .str "failed")] "action_type" (.str action.Type')

/-- The side effect of one action on the response accumulator: a successful
`search_rag` registers the source, a successful `call_tool` registers the
tool name. -/
def execEffect (env : Env) (action : Action) (resp : AgentResponse) : AgentResponse :=
  if action.Type' = "search_rag" then
    match executeSearchRAG env action.Parameters with
    | .ok _ => { resp with Sources := resp.Sources ++ ["RAG Knowledge Base"] }
    | .error _ => resp
  else if action.Type' = "call_tool" then
    match executeCallTool env action.Parameters with
    | .ok _ =>
        match rlookup action.Parameters "tool" with
        | some (.str t) => { resp with ToolsUsed := resp.ToolsUsed ++ [t] }
        | _ => resp
    | .error _ => resp
  else resp

/-- The result list of `executeActions`: one result per action, in order.
The Go loop body computes each result from its own action alone, so the
interleaved loop factors into this map and the `execEffects` fold. -/
def execResults (env : Env) (actions : List Action) : List RMap :=
  actions.map (execOne env)

/-- The accumulator updates of `executeActions`, folded in order. -/
def execEffects (env : Env) (actions : List Action) (resp : AgentResponse) : AgentResponse :=
  actions.foldl (fun r a => execEffect env a r) resp

/-- `executeActions(actions, &response)`: the collected results together with
the updated response accumulator. -/
def executeActions (env : Env) (actions : List Action) (resp : AgentResponse) :
    List RMap × AgentResponse :=
  (execResults env actions, execEffects env actions resp)

/-- `synthesizeAnswer`: a transport error yields the static fallback; an
unusable response body yields "No answer could be generated.". -/
def synthesizeAnswer (env : Env) (query : String) (results : List RMap) : String :=
  match env.synthResp query results with
  | .transportErr _ => "Unable to synthesize answer from available information."
  | .noCandidates => "No answer could be generated."
  | .emptyParts => "No answer could be generated."
  | .text s => s

/-- `verifyAnswer`: transport error → the neutral default `⟨true, 0.5, ""⟩`;
unusable or undecodable response → the optimistic default `⟨true, 0.7, ""⟩`;
a decoded verification is returned as-is (no clamping).  The `_results`
argument mirrors the Go signature; the Go prompt does not use it. -/
def verifyAnswer (env : Env) (query answer : String) (_results : List RMap) : Verification :=
  match env.verifyResp query answer with
  | .transportErr _ => { IsComplete := true, Confidence := mkRat 1 2, MissingInfo := "" }
  | .noCandidates => { IsComplete := true, Confidence := mkRat 7 10, MissingInfo := "" }
  | .emptyParts => { IsComplete := true, Confidence := mkRat 7 10, MissingInfo := "" }
  | .text s =>
      match env.unmarshalVerif (cleanModelJson s) { IsComplete := false, Confidence := 0, MissingInfo := "" } with
      | none => { IsComplete := true, Confidence := mkRat 7 10, MissingInfo := "" }
      | some v => v

/-- `enhanceQueryForIteration`: append the missing-info text as a
parenthetical suffix; the identity when the missing-info text is empty. -/
def enhanceQueryForIteration (originalQuery missingInfo : String) : String :=
  if missingInfo = "" then originalQuery
  else originalQuery ++ " (specifically about: " ++ missingInfo ++ ")"

/-- `storeConversation`: create the conversation on first use, then append
the user message and the assistant message. -/
def storeConversation (convs : ConvMap) (conversationID query answer : String) : ConvMap :=
  let conv := match lookupConv convs conversationID with
              | some c => c
              | none => { ID := conversationID, Messages := [] }
  setConv convs conversationID
    { conv with Messages := conv.Messages ++ [{ Role := "user", Content := query },
                                              { Role := "assistant", Content := answer }] }

/-- The loop's success test:
`verification.IsComplete && verification.Confidence >= CONFIDENCE_THRESHOLD`. -/
def stopCond (v : Verification) : Bool :=
  v.IsComplete && decide (CONFIDENCE_THRESHOLD ≤ v.Confidence)

/-- Append one `AgentStep` to the response, numbering it `len(Steps)+1`. -/
def addStep (resp : AgentResponse) (ty desc result : String) (success : Bool) : AgentResponse :=
  { resp with Steps := resp.Steps ++
      [{ StepNumber := resp.Steps.length + 1
         Type' := ty
         Description := desc
         Action := ""
         Result := result
         Success := success
         Duration := 0 }] }

/-- STEP 1 of an iteration: the response after appending the analyze step
(always recorded with `Success = true`, even when the analysis call failed
in-band). -/
def analyzeStepResp (env : Env) (q : String) (resp : AgentResponse) : AgentResponse :=
  addStep resp "analyze" "Analyze user query and intent" (analyzeQuery env q) true

/-- STEP 4 of an iteration: the draft answer synthesized from the executed
results of the iteration's plan. -/
def iterAns (env : Env) (q : String) (plan : ExecutionPlan) : String :=
  synthesizeAnswer env q (execResults env plan.Actions)

/-- STEP 5 of an iteration: the verification of the iteration's draft answer. -/
def iterVerif (env : Env) (q : String) (plan : ExecutionPlan) : Verification :=
  verifyAnswer env q (iterAns env q plan) (execResults env plan.Actions)

/-- The response after the five steps of one full iteration (analyze, plan,
execute, synthesize, verify) have been appended and the accumulator effects
of the executed actions applied. -/
def iterResp6 (env : Env) (q : String) (resp : AgentResponse) (plan : ExecutionPlan) :
    AgentResponse :=
  let resp2 := addStep (analyzeStepResp env q resp) "plan" "Create execution plan" plan.Reasoning true
  let results := execResults env plan.Actions
  let resp3 := execEffects env plan.Actions resp2
  let resp4 := addStep resp3 "execute" ("Execute " ++ toString plan.Actions.length ++ " actions")
    ("Executed " ++ toString results.length ++ " actions") true
  let resp5 := addStep resp4 "synthesize" "Synthesize final answer"
    ("Generated answer (" ++ toString (iterAns env q plan).length ++ " chars)") true
  addStep resp5 "verify" "Verify answer quality"
    ("Confidence: " ++ toString (iterVerif env q plan).Confidence ++ ", Complete: " ++
      toString (iterVerif env q plan).IsComplete) true

/-- Everything `executeAgenticLoop` carries out of its `for` loop: the
response built so far, the `finalAnswer` and `confidence` locals, the current
(possibly rewritten) `req.Query`, and whether the loop ended in the
plan-failure early `return`. -/
structure LoopOut where
  resp : AgentResponse
  finalAnswer : String
  confidence : ℚ
  finalQuery : String
  hardStop : Bool

/-- The `for iteration := 1; iteration <= req.MaxIterations` loop of
`executeAgenticLoop`, recursing on the number of remaining iterations
(`remaining = req.MaxIterations - iteration + 1`, so the Go guard
`iteration >= req.MaxIterations` is `remaining = 1`, i.e. the tail
calls happen while `remaining - 1 > 0`). -/
def agentLoopAux (env : Env) : Nat → String → AgentResponse → String → ℚ → LoopOut
  | 0, query, resp, finalAnswer, confidence =>
      { resp := resp
        finalAnswer := finalAnswer
        confidence := confidence
        finalQuery := query
        hardStop := false }
  | remaining + 1, query, resp, finalAnswer, confidence =>
      -- STEP 1 (analyze) is recorded first; STEP 2 (plan) decides between the
      -- hard-stop early return and the rest of the iteration; STEPS 3-5 and
      -- the accumulator effects are bundled in `iterResp6`/`iterAns`/`iterVerif`.
      match createExecutionPlan env query with
      | .error e =>
          { resp := { addStep (analyzeStepResp env query resp) "plan" "Create execution plan" "" false with
                        Answer := "Failed to create plan: " ++ e }
            finalAnswer := finalAnswer
            confidence := confidence
            finalQuery := query
            hardStop := true }
      | .ok plan =>
          -- STEP 6: DECIDE IF DONE
          if stopCond (iterVerif env query plan) then
            { resp := { iterResp6 env query resp plan with NeedMoreInfo := false }
              finalAnswer := iterAns env query plan
              confidence := (iterVerif env query plan).Confidence
              finalQuery := query
              hardStop := false }
          else if remaining = 0 then
            { resp := { iterResp6 env query resp plan with
                          NeedMoreInfo := true
                          FollowUpQ := followUpTemplate ++ (iterVerif env query plan).MissingInfo }
              finalAnswer := iterAns env query plan
              confidence := (iterVerif env query plan).Confidence
              finalQuery := query
              hardStop := false }
          else
            agentLoopAux env remaining
              (enhanceQueryForIteration query (iterVerif env query plan).MissingInfo)
              (iterResp6 env query resp plan) (iterAns env query plan)
              (iterVerif env query plan).Confidence

/-- The response value initialized at the top of `executeAgenticLoop`. -/
def initResponse (req : AgentRequest) : AgentResponse :=
  { ConversationID := req.ConversationID
    Query := req.Query
    Answer := ""
    Confidence := 0
    Iterations := 0
    ToolsUsed := []
    Sources := []
    ProcessTime := 0
    Steps := []
    NeedMoreInfo := false
    FollowUpQ := "" }

/-- `executeAgenticLoop`: run the loop; on the plan-failure early `return`
the post-loop epilogue (answer/confidence/iteration-count assignment and
`storeConversation`) is skipped. -/
def executeAgenticLoop (env : Env) (convs : ConvMap) (req : AgentRequest) :
    AgentResponse × ConvMap :=
  let out := agentLoopAux env req.MaxIterations req.Query (initResponse req) "" 0
  if out.hardStop then (out.resp, convs)
  else
    ({ out.resp with Answer := out.finalAnswer
                     Confidence := out.confidence
                     Iterations := out.resp.Steps.length / 5 },
     storeConversation convs req.ConversationID out.finalQuery out.finalAnswer)

/-- Whether a run ends in the plan-failure early `return`. -/
def loopHardStop (env : Env) (req : AgentRequest) : Bool :=
  (agentLoopAux env req.MaxIterations req.Query (initResponse req) "" 0).hardStop

/-- The value of the `req.Query` variable when the loop ends (the query of
the last started iteration). -/
def loopFinalQuery (env : Env) (req : AgentRequest) : String :=
  (agentLoopAux env req.MaxIterations req.Query (initResponse req) "" 0).finalQuery

/-- The value of the `finalAnswer` variable when the loop ends. -/
def loopFinalAnswer (env : Env) (req : AgentRequest) : String :=
  (agentLoopAux env req.MaxIterations req.Query (initResponse req) "" 0).finalAnswer

/-- The plan/execute/synthesize/verify phases run at one fixed query: the
draft answer and the verification they produce, or the plan hard error. -/
def phasesAt (env : Env) (q : String) : Except String (String × Verification) :=
  match createExecutionPlan env q with
  | .error e => .error e
  | .ok plan => .ok (iterAns env q plan, iterVerif env q plan)

/-- The query the next iteration would use after an unsuccessful iteration at
query `q` (unchanged if the plan phase would hard-fail; that case never
arises under the hypotheses of the theorems that use it). -/
def nextQuery (env : Env) (q : String) : String :=
  match phasesAt env q with
  | .ok p => enhanceQueryForIteration q p.2.MissingInfo
  | .error _ => q

/-- The query fed into iteration `i+1` of a run starting from `q0`
(0-based: `traceQ env q0 0 = q0` is iteration 1's query). -/
def traceQ (env : Env) (q0 : String) : Nat → String
  | 0 => q0
  | i + 1 => nextQuery env (traceQ env q0 i)

/-- The verification produced by iteration `i+1` of a run starting from `q0`
(`none` if that iteration's plan phase hard-fails). -/
def traceV (env : Env) (q0 : String) (i : Nat) : Option Verification :=
  match phasesAt env (traceQ env q0 i) with
  | .ok p => some p.2
  | .error _ => none

/-- The draft answer produced by iteration `i+1` of a run starting from `q0`. -/
def traceA (env : Env) (q0 : String) (i : Nat) : Option String :=
  match phasesAt env (traceQ env q0 i) with
  | .ok p => some p.1
  | .error _ => none

/-- The success test applied to an optional verification. -/
def stopAtV : Option Verification → Bool
  | some v => stopCond v
  | none => false

/-- The missing-info text of an optional verification. -/
def missingAtV : Option Verification → String
  | some v => v.MissingInfo
  | none => ""

/-- The last two messages of a stored conversation. -/
def lastTwoMessages (convs : ConvMap) (conversationID : String) : Option (List Message) :=
  (lookupConv convs conversationID).map
    (fun c => c.Messages.drop (c.Messages.length - 2))

/-! ### Concrete environments used to instantiate the theorems

Each oracle mimics a concrete behaviour of the collaborators / of
`json.Unmarshal` that a reviewer can reproduce against the real services:
an `unmarshalPlan` that accepts exactly the fixed model output "PLAN" stands
for a plan response whose JSON decodes with no actions, an `unmarshalVerif`
producing `⟨true, 0.9, ""⟩` stands for a verifier JSON reporting confidence
0.9, and so on. -/

def baseEnv : Env :=
  { analyzeResp := fun _ => .text "analysis of the query"
    planResp := fun _ => .text "PLAN"
    unmarshalPlan := fun s p => if s = "PLAN" then some p else none
    searchRag := fun _ _ _ => .error "rag unreachable"
    callTool := fun _ _ => .error "gateway unreachable"
    synthResp := fun _ _ => .text "draft answer"
    verifyResp := fun _ _ => .text "VERDICT"
    unmarshalVerif := fun s v0 =>
      if s = "VERDICT" then some { v0 with IsComplete := true, Confidence := mkRat 9 10 }
      else none }

/-- A run whose first iteration verifies complete with confidence 0.9. -/
def envC1w : Env := baseEnv

/-- A run whose verifier always reports incomplete, confidence 0.3, missing
info "budget limits". -/
def envC2w : Env :=
  { baseEnv with
      unmarshalVerif := fun s v0 =>
        if s = "VERDICT" then
          some { v0 with IsComplete := false, Confidence := mkRat 3 10, MissingInfo := "budget limits" }
        else none }

/-- A verifier response that decodes (as `json.Unmarshal` of a body such as
`confidence: 2` would) to a verification reporting confidence 2. -/
def envC4x : Env :=
  { baseEnv with
      unmarshalVerif := fun s v0 =>
        if s = "VERDICT" then some { v0 with IsComplete := true, Confidence := 2 }
        else none }

/-- A planning response that is not decodable JSON. -/
def envC5w : Env :=
  { baseEnv with
      planResp := fun _ => .text "here is my plan in free text"
      unmarshalPlan := fun _ _ => none }

/-- Plan generation succeeds on the original query "q0" but the model becomes
unreachable for every other (rewritten) query; the verifier reports
incomplete with missing info "more detail". -/
def envC6x : Env :=
  { baseEnv with
      planResp := fun q => if q = "q0" then .text "PLAN" else .transportErr "model unreachable"
      unmarshalVerif := fun s v0 =>
        if s = "VERDICT" then some { v0 with IsComplete := false, MissingInfo := "more detail" }
        else none }

/-- Same collaborator behaviour as `envC2w` (always-unsatisfied verifier with
missing info "budget limits"). -/
def envC7x : Env := envC2w

/-- A verifier that always reports incomplete with an EMPTY missing-info
text (confidence 0.1). -/
def envC8x : Env :=
  { baseEnv with
      unmarshalVerif := fun s v0 =>
        if s = "VERDICT" then some { v0 with IsComplete := false, Confidence := mkRat 1 10 }
        else none }

/-- A verify call that fails at the transport level. -/
def envC9t : Env :=
  { baseEnv with verifyResp := fun _ _ => .transportErr "connection refused" }

/-- A verify call whose response text does not decode. -/
def envC9p : Env :=
  { baseEnv with
      verifyResp := fun _ _ => .text "free text, not the expected JSON shape"
      unmarshalVerif := fun _ _ => none }

/-- An analyze call that fails at the transport level (everything else as in
`baseEnv`). -/
def envC10w : Env :=
  { baseEnv with analyzeResp := fun _ => .transportErr "network unreachable" }

/-- Single-iteration request. -/
def reqKYC1 : AgentRequest :=
  { Query := "What are the KYC requirements?", ConversationID := "C1", MaxIterations := 1 }

/-- Two-iteration request with query "q0". -/
def reqQ0Max2 : AgentRequest :=
  { Query := "q0", ConversationID := "C1", MaxIterations := 2 }

/-- A `call_tool` action whose parameters carry no tool name. -/
def actNoTool : Action :=
  { Type' := "call_tool", Description := "invoke a tool without naming it", Parameters := [] }

/-- An action of an unrecognized kind. -/
def actUnknown : Action :=
  { Type' := "frobnicate", Description := "bogus action", Parameters := [] }

/-- A deferred synthesis action. -/
def actSynth : Action :=
  { Type' := "synthesize", Description := "combine information", Parameters := [] }

/-- The action list used to instantiate the executor theorem. -/
def actsC3 : List Action := [actUnknown, actNoTool, actSynth]

/-! ### Structural lemmas about the loop -/

theorem execEffect_fields (env : Env) (a : Action) (resp : AgentResponse) :
    (execEffect env a resp).Steps = resp.Steps ∧
    (execEffect env a resp).Iterations = resp.Iterations ∧
    (execEffect env a resp).Confidence = resp.Confidence ∧
    (execEffect env a resp).ConversationID = resp.ConversationID ∧
    (execEffect env a resp).Query = resp.Query := by
  unfold execEffect
  repeat' split
  all_goals exact ⟨rfl, rfl, rfl, rfl, rfl⟩

theorem execEffects_fields (env : Env) (as : List Action) : ∀ resp : AgentResponse,
    (execEffects env as resp).Steps = resp.Steps ∧
    (execEffects env as resp).Iterations = resp.Iterations ∧
    (execEffects env as resp).Confidence = resp.Confidence ∧
    (execEffects env as resp).ConversationID = resp.ConversationID ∧
    (execEffects env as resp).Query = resp.Query := by
  induction as with
  | nil => intro resp; exact ⟨rfl, rfl, rfl, rfl, rfl⟩
  | cons a t ih =>
      intro resp
      obtain ⟨h1, h2, h3, h4, h5⟩ := ih (execEffect env a resp)
      obtain ⟨g1, g2, g3, g4, g5⟩ := execEffect_fields env a resp
      exact ⟨h1.trans g1, h2.trans g2, h3.trans g3, h4.trans g4, h5.trans g5⟩

theorem addStep_Steps (resp : AgentResponse) (ty desc result : String) (success : Bool) :
    (addStep resp ty desc result success).Steps = resp.Steps ++
      [{ StepNumber := resp.Steps.length + 1
         Type' := ty
         Description := desc
         Action := ""
         Result := result
         Success := success
         Duration := 0 }] := rfl

theorem addStep_Steps_length (resp : AgentResponse) (ty desc result : String) (success : Bool) :
    (addStep resp ty desc result success).Steps.length = resp.Steps.length + 1 := by
  simp [addStep]

/-- Chaining helper: appending one more step preserves the fact that the
accumulated step list extends a previous one. -/
theorem steps_append_trans {X Y : AgentResponse}
    (h : ∃ u, Y.Steps = X.Steps ++ u) (ty desc result : String) (success : Bool) :
    ∃ u, (addStep Y ty desc result success).Steps = X.Steps ++ u := by
  obtain ⟨u, hu⟩ := h
  exact ⟨u ++ [{ StepNumber := Y.Steps.length + 1
                 Type' := ty
                 Description := desc
                 Action := ""
                 Result := result
                 Success := success
                 Duration := 0 }], by simp [addStep, hu]⟩

theorem iterResp6_fields (env : Env) (q : String) (resp : AgentResponse) (plan : ExecutionPlan) :
    (iterResp6 env q resp plan).Steps.length = resp.Steps.length + 5 ∧
    (iterResp6 env q resp plan).Iterations = resp.Iterations ∧
    (iterResp6 env q resp plan).Confidence = resp.Confidence ∧
    (iterResp6 env q resp plan).ConversationID = resp.ConversationID ∧
    (iterResp6 env q resp plan).Query = resp.Query := by
  obtain ⟨h1, h2, h3, h4, h5⟩ := execEffects_fields env plan.Actions
    (addStep (analyzeStepResp env q resp) "plan" "Create execution plan" plan.Reasoning true)
  refine ⟨?_, ?_, ?_, ?_, ?_⟩
  · have ha : (analyzeStepResp env q resp).Steps.length = resp.Steps.length + 1 := by
      simp [analyzeStepResp, addStep]
    simp only [iterResp6, addStep_Steps_length, h1, ha]
  · simp only [iterResp6]; exact h2
  · simp only [iterResp6]; exact h3
  · simp only [iterResp6]; exact h4
  · simp only [iterResp6]; exact h5

theorem iterResp6_steps_append (env : Env) (q : String) (resp : AgentResponse)
    (plan : ExecutionPlan) :
    ∃ t, (iterResp6 env q resp plan).Steps = resp.Steps ++ t := by
  obtain ⟨h1, _, _, _, _⟩ := execEffects_fields env plan.Actions
    (addStep (analyzeStepResp env q resp) "plan" "Create execution plan" plan.Reasoning true)
  simp only [iterResp6]
  apply steps_append_trans
  apply steps_append_trans
  apply steps_append_trans
  rw [h1]
  apply steps_append_trans
  exact ⟨_, rfl⟩

theorem agentLoopAux_fields (env : Env) : ∀ (n : Nat) (q : String) (resp : AgentResponse)
    (ans : String) (conf : ℚ),
    (agentLoopAux env n q resp ans conf).resp.Iterations = resp.Iterations ∧
    (agentLoopAux env n q resp ans conf).resp.Confidence = resp.Confidence ∧
    (agentLoopAux env n q resp ans conf).resp.ConversationID = resp.ConversationID ∧
    (agentLoopAux env n q resp ans conf).resp.Query = resp.Query := by
  intro n
  induction n with
  | zero => intro q resp ans conf; exact ⟨rfl, rfl, rfl, rfl⟩
  | succ m ih =>
      intro q resp ans conf
      cases h : createExecutionPlan env q with
      | error e =>
          simp only [agentLoopAux, h]
          exact ⟨rfl, rfl, rfl, rfl⟩
      | ok plan =>
          obtain ⟨r1, r2, r3, r4, r5⟩ := iterResp6_fields env q resp plan
          simp only [agentLoopAux, h]
          by_cases hs : stopCond (iterVerif env q plan)
          · simp only [hs, if_true]
            exact ⟨r2, r3, r4, r5⟩
          · by_cases hm : m = 0
            · simp only [hs, hm, if_true, if_false, Bool.false_eq_true, reduceIte]
              exact ⟨r2, r3, r4, r5⟩
            · simp only [hs, hm, Bool.false_eq_true, reduceIte, if_neg]
              obtain ⟨i1, i2, i3, i4⟩ := ih
                (enhanceQueryForIteration q (iterVerif env q plan).MissingInfo)
                (iterResp6 env q resp plan) (iterAns env q plan)
                (iterVerif env q plan).Confidence
              exact ⟨i1.trans r2, i2.trans r3, i3.trans r4, i4.trans r5⟩

theorem agentLoopAux_steps_extend (env : Env) : ∀ (n : Nat) (q : String) (resp : AgentResponse)
    (ans : String) (conf : ℚ),
    ∃ t, (agentLoopAux env n q resp ans conf).resp.Steps = resp.Steps ++ t := by
  intro n
  induction n with
  | zero => intro q resp ans conf; exact ⟨[], by simp [agentLoopAux]⟩
  | succ m ih =>
      intro q resp ans conf
      cases h : createExecutionPlan env q with
      | error e =>
          simp only [agentLoopAux, h]
          apply steps_append_trans
          exact ⟨_, rfl⟩
      | ok plan =>
          obtain ⟨t6, h6⟩ := iterResp6_steps_append env q resp plan
          simp only [agentLoopAux, h]
          by_cases hs : stopCond (iterVerif env q plan)
          · simp only [hs, if_true]
            exact ⟨t6, h6⟩
          · by_cases hm : m = 0
            · simp only [hs, hm, Bool.false_eq_true, reduceIte, if_true]
              exact ⟨t6, h6⟩
            · simp only [hs, hm, Bool.false_eq_true, reduceIte, if_neg]
              obtain ⟨t', h'⟩ := ih
                (enhanceQueryForIteration q (iterVerif env q plan).MissingInfo)
                (iterResp6 env q resp plan) (iterAns env q plan)
                (iterVerif env q plan).Confidence
              exact ⟨t6 ++ t', by rw [h', h6, List.append_assoc]⟩

theorem traceQ_shift (env : Env) (q : String) :
    ∀ i, traceQ env q (i + 1) = traceQ env (nextQuery env q) i := by
  intro i
  induction i with
  | zero => rfl
  | succ j ih =>
      show nextQuery env (traceQ env q (j + 1)) = nextQuery env (traceQ env (nextQuery env q) j)
      rw [ih]

theorem traceV_shift (env : Env) (q : String) (i : Nat) :
    traceV env q (i + 1) = traceV env (nextQuery env q) i := by
  simp [traceV, traceQ_shift]

/-- If the plan phase succeeds at query `q`, the next-iteration query is the
enhanced one and the trace verification at index 0 is the iteration's
verification. -/
theorem phases_ok_facts (env : Env) (q : String) (plan : ExecutionPlan)
    (h : createExecutionPlan env q = .ok plan) :
    traceV env q 0 = some (iterVerif env q plan) ∧
    nextQuery env q = enhanceQueryForIteration q (iterVerif env q plan).MissingInfo := by
  constructor
  · simp [traceV, traceQ, phasesAt, h]
  · simp [nextQuery, phasesAt, h]

/-- Main stop lemma: if iterations `1..k-1` all produce verifications
failing the success test and iteration `k` produces one satisfying it
(`k ≤ remaining`), the loop performs exactly `k` more iterations, appends
`5k` steps, and ends with `NeedMoreInfo = false` and no hard stop. -/
theorem agentLoopAux_stop (env : Env) : ∀ (k : Nat), 1 ≤ k →
    ∀ (remaining : Nat) (q : String) (resp : AgentResponse) (ans : String) (conf : ℚ),
    k ≤ remaining →
    (∀ i, i < k → (traceV env q i).isSome = true) →
    (∀ i, i + 1 < k → stopAtV (traceV env q i) = false) →
    stopAtV (traceV env q (k - 1)) = true →
    (agentLoopAux env remaining q resp ans conf).hardStop = false ∧
    (agentLoopAux env remaining q resp ans conf).resp.NeedMoreInfo = false ∧
    (agentLoopAux env remaining q resp ans conf).resp.Steps.length = resp.Steps.length + 5 * k := by
  intro k
  induction k with
  | zero => omega
  | succ k' ih =>
      intro _ remaining q resp ans conf hkr hplan hfail hstop
      obtain ⟨r, rfl⟩ : ∃ r, remaining = r + 1 := ⟨remaining - 1, by omega⟩
      have hp0 : (traceV env q 0).isSome = true := hplan 0 (by omega)
      cases h : createExecutionPlan env q with
      | error e => simp [traceV, traceQ, phasesAt, h] at hp0
      | ok plan =>
          obtain ⟨hv0, hq1⟩ := phases_ok_facts env q plan h
          obtain ⟨r1, _, _, _, _⟩ := iterResp6_fields env q resp plan
          by_cases hk0 : k' = 0
          · subst hk0
            have hs : stopCond (iterVerif env q plan) = true := by
              have := hstop
              rw [show (1 - 1 : Nat) = 0 from rfl, hv0] at this
              exact this
            simp only [agentLoopAux, h, hs, if_true]
            refine ⟨trivial, trivial, ?_⟩
            simpa using r1
          · have hk1 : 1 ≤ k' := by omega
            have hs : stopCond (iterVerif env q plan) = false := by
              have := hfail 0 (by omega)
              rw [hv0] at this
              exact this
            have hrne : ¬ r = 0 := by omega
            simp only [agentLoopAux, h, hs, Bool.false_eq_true, reduceIte, hrne, if_neg]
            have hplan' : ∀ i, i < k' →
                (traceV env (enhanceQueryForIteration q (iterVerif env q plan).MissingInfo) i).isSome = true := by
              intro i hi
              rw [← hq1, ← traceV_shift]
              exact hplan (i + 1) (by omega)
            have hfail' : ∀ i, i + 1 < k' →
                stopAtV (traceV env (enhanceQueryForIteration q (iterVerif env q plan).MissingInfo) i) = false := by
              intro i hi
              rw [← hq1, ← traceV_shift]
              exact hfail (i + 1) (by omega)
            have hstop' :
                stopAtV (traceV env (enhanceQueryForIteration q (iterVerif env q plan).MissingInfo) (k' - 1)) = true := by
              rw [← hq1, ← traceV_shift]
              have : k' - 1 + 1 = k' + 1 - 1 := by omega
              rw [this]
              exact hstop
            obtain ⟨c1, c2, c3⟩ := ih hk1 r
              (enhanceQueryForIteration q (iterVerif env q plan).MissingInfo)
              (iterResp6 env q resp plan) (iterAns env q plan)
              (iterVerif env q plan).Confidence
              (by omega) hplan' hfail' hstop'
            refine ⟨c1, c2, ?_⟩
            rw [c3, r1]
            ring

/-- Main exhaustion lemma: if every one of the `remaining` iterations
produces a verification failing the success test, the loop runs them all,
sets `NeedMoreInfo`, and builds the follow-up question from the template and
the last verification's missing-info text. -/
theorem agentLoopAux_exhaust (env : Env) : ∀ (remaining : Nat), 1 ≤ remaining →
    ∀ (q : String) (resp : AgentResponse) (ans : String) (conf : ℚ),
    (∀ i, i < remaining → (traceV env q i).isSome = true) →
    (∀ i, i < remaining → stopAtV (traceV env q i) = false) →
    (agentLoopAux env remaining q resp ans conf).hardStop = false ∧
    (agentLoopAux env remaining q resp ans conf).resp.NeedMoreInfo = true ∧
    (agentLoopAux env remaining q resp ans conf).resp.FollowUpQ =
      followUpTemplate ++ missingAtV (traceV env q (remaining - 1)) ∧
    (agentLoopAux env remaining q resp ans conf).resp.Steps.length = resp.Steps.length + 5 * remaining := by
  intro remaining
  induction remaining with
  | zero => omega
  | succ m ih =>
      intro _ q resp ans conf hplan hfail
      have hp0 : (traceV env q 0).isSome = true := hplan 0 (by omega)
      cases h : createExecutionPlan env q with
      | error e => simp [traceV, traceQ, phasesAt, h] at hp0
      | ok plan =>
          obtain ⟨hv0, hq1⟩ := phases_ok_facts env q plan h
          obtain ⟨r1, _, _, _, _⟩ := iterResp6_fields env q resp plan
          have hs : stopCond (iterVerif env q plan) = false := by
            have := hfail 0 (by omega)
            rw [hv0] at this
            exact this
          by_cases hm : m = 0
          · subst hm
            simp only [agentLoopAux, h, hs, Bool.false_eq_true, reduceIte, if_true]
            refine ⟨trivial, trivial, ?_, ?_⟩
            · simp only [Nat.add_sub_cancel, hv0, missingAtV]
            · simpa using r1
          · simp only [agentLoopAux, h, hs, Bool.false_eq_true, reduceIte, hm, if_neg]
            have hplan' : ∀ i, i < m →
                (traceV env (enhanceQueryForIteration q (iterVerif env q plan).MissingInfo) i).isSome = true := by
              intro i hi
              rw [← hq1, ← traceV_shift]
              exact hplan (i + 1) (by omega)
            have hfail' : ∀ i, i < m →
                stopAtV (traceV env (enhanceQueryForIteration q (iterVerif env q plan).MissingInfo) i) = false := by
              intro i hi
              rw [← hq1, ← traceV_shift]
              exact hfail (i + 1) (by omega)
            obtain ⟨c1, c2, c3, c4⟩ := ih (by omega)
              (enhanceQueryForIteration q (iterVerif env q plan).MissingInfo)
              (iterResp6 env q resp plan) (iterAns env q plan)
              (iterVerif env q plan).Confidence hplan' hfail'
            refine ⟨c1, c2, ?_, ?_⟩
            · rw [c3, ← hq1, ← traceV_shift]
              have : m - 1 + 1 = m + 1 - 1 := by omega
              rw [this]
            · rw [c4, r1]
              ring

/-- If every decoded verification reports a confidence in `[0,1]`, every
verification the verifier can return has confidence in `[0,1]` (the two
fallback constants 0.5 and 0.7 are in range; a decoded one is passed through
unclamped). -/
theorem verifyAnswer_conf_bound (env : Env)
    (hU : ∀ s v0 v, env.unmarshalVerif s v0 = some v → 0 ≤ v.Confidence ∧ v.Confidence ≤ 1)
    (q a : String) (rs : List RMap) :
    0 ≤ (verifyAnswer env q a rs).Confidence ∧ (verifyAnswer env q a rs).Confidence ≤ 1 := by
  cases h : env.verifyResp q a with
  | transportErr m => simp only [verifyAnswer, h]; exact ⟨by decide, by decide⟩
  | noCandidates => simp only [verifyAnswer, h]; exact ⟨by decide, by decide⟩
  | emptyParts => simp only [verifyAnswer, h]; exact ⟨by decide, by decide⟩
  | text s =>
      cases hu : env.unmarshalVerif (cleanModelJson s)
          { IsComplete := false, Confidence := 0, MissingInfo := "" } with
      | none => simp only [verifyAnswer, h, hu]; exact ⟨by decide, by decide⟩
      | some v =>
          simp only [verifyAnswer, h, hu]
          exact hU _ _ _ hu

/-- The loop's `confidence` local stays in `[0,1]` as long as every decoded
verification is in range. -/
theorem agentLoopAux_conf_bound (env : Env)
    (hU : ∀ s v0 v, env.unmarshalVerif s v0 = some v → 0 ≤ v.Confidence ∧ v.Confidence ≤ 1) :
    ∀ (n : Nat) (q : String) (resp : AgentResponse) (ans : String) (conf : ℚ),
    0 ≤ conf → conf ≤ 1 →
    0 ≤ (agentLoopAux env n q resp ans conf).confidence ∧
    (agentLoopAux env n q resp ans conf).confidence ≤ 1 := by
  intro n
  induction n with
  | zero => intro q resp ans conf h0 h1; exact ⟨h0, h1⟩
  | succ m ih =>
      intro q resp ans conf h0 h1
      cases h : createExecutionPlan env q with
      | error e =>
          simp only [agentLoopAux, h]
          exact ⟨h0, h1⟩
      | ok plan =>
          have hv : 0 ≤ (iterVerif env q plan).Confidence ∧ (iterVerif env q plan).Confidence ≤ 1 :=
            verifyAnswer_conf_bound env hU q (iterAns env q plan) (execResults env plan.Actions)
          simp only [agentLoopAux, h]
          by_cases hs : stopCond (iterVerif env q plan)
          · simp only [hs, if_true]
            exact hv
          · by_cases hm : m = 0
            · simp only [hs, hm, Bool.false_eq_true, reduceIte, if_true]
              exact hv
            · simp only [hs, hm, Bool.false_eq_true, reduceIte, if_neg]
              exact ih _ _ _ _ hv.1 hv.2

/-- When the very first iteration satisfies the success test, the loop never
rewrites the query: the final working query is the original. -/
theorem agentLoopAux_stop1_finalQuery (env : Env) (n : Nat) (q : String) (resp : AgentResponse)
    (ans : String) (conf : ℚ) (h : stopAtV (traceV env q 0) = true) :
    (agentLoopAux env n q resp ans conf).finalQuery = q := by
  cases n with
  | zero => rfl
  | succ m =>
      cases hc : createExecutionPlan env q with
      | error e => simp [traceV, traceQ, phasesAt, hc, stopAtV] at h
      | ok plan =>
          obtain ⟨hv0, _⟩ := phases_ok_facts env q plan hc
          rw [hv0] at h
          have hs : stopCond (iterVerif env q plan) = true := h
          simp only [agentLoopAux, hc, hs, if_true]

theorem lookupConv_setConv (m : ConvMap) (key : String) (c : Conversation) :
    lookupConv (setConv m key c) key = some c := by
  induction m with
  | nil => simp [setConv, lookupConv]
  | cons p rest ih =>
      obtain ⟨k, c'⟩ := p
      by_cases hk : k = key
      · simp [setConv, hk, lookupConv]
      · simp [setConv, hk, lookupConv, ih]

/-- `storeConversation` always leaves the user message and the assistant
message as the last two entries of the conversation it touched. -/
theorem storeConversation_lastTwo (convs : ConvMap) (conversationID q a : String) :
    lastTwoMessages (storeConversation convs conversationID q a) conversationID =
      some [{ Role := "user", Content := q }, { Role := "assistant", Content := a }] := by
  have hdrop : ∀ (old : List Message),
      List.drop ((old ++ [({ Role := "user", Content := q } : Message),
          { Role := "assistant", Content := a }]).length - 2)
        (old ++ [{ Role := "user", Content := q }, { Role := "assistant", Content := a }]) =
      [{ Role := "user", Content := q }, { Role := "assistant", Content := a }] := by
    intro old
    have hlen : (old ++ [({ Role := "user", Content := q } : Message),
        { Role := "assistant", Content := a }]).length - 2 = old.length := by simp
    rw [hlen]
    exact List.drop_left _ _
  cases hl : lookupConv convs conversationID with
  | none =>
      simp only [lastTwoMessages, storeConversation, hl, lookupConv_setConv, Option.map]
      exact congrArg some (hdrop [])
  | some c =>
      simp only [lastTwoMessages, storeConversation, hl, lookupConv_setConv, Option.map]
      exact congrArg some (hdrop c.Messages)

theorem followUpTemplate_append_ne (m : String) : followUpTemplate ++ m ≠ "" := by
  intro h
  have h2 : followUpTemplate.data ++ m.data = [] := by
    have h' := congrArg String.data h
    rw [String.data_append] at h'
    exact h'.trans rfl
  have h3 : followUpTemplate.data = [] := (List.append_eq_nil.mp h2).1
  exact absurd h3 (by decide)

theorem append_suffix_ne (q s : String) (hs : s ≠ "") : q ++ s ≠ q := by
  intro h
  have h2 := congrArg String.length h
  rw [String.length_append] at h2
  have hz : s.length = 0 := by omega
  apply hs
  cases s with
  | mk d =>
      cases d with
      | nil => rfl
      | cons c cs => exact absurd hz (by simp [String.length])

/-- With an empty step list at entry, the first recorded step of a full
iteration is the analyze step (numbered 1, successful, carrying the analysis
text) and the second is the plan step. -/
theorem iterResp6_firstSteps (env : Env) (q : String) (resp : AgentResponse)
    (plan : ExecutionPlan) (h : resp.Steps = []) :
    (iterResp6 env q resp plan).Steps.get? 0 = some
      { StepNumber := 1, Type' := "analyze", Description := "Analyze user query and intent",
        Action := "", Result := analyzeQuery env q, Success := true, Duration := 0 } ∧
    ∃ st : AgentStep, (iterResp6 env q resp plan).Steps.get? 1 = some st ∧ st.Type' = "plan" := by
  obtain ⟨h1, _, _, _, _⟩ := execEffects_fields env plan.Actions
    (addStep (analyzeStepResp env q resp) "plan" "Create execution plan" plan.Reasoning true)
  simp [analyzeStepResp, addStep, h] at h1
  constructor
  · simp [iterResp6, addStep, analyzeStepResp, h, h1]
  · refine ⟨{ StepNumber := 2
              Type' := "plan"
              Description := "Create execution plan"
              Action := ""
              Result := plan.Reasoning
              Success := true
              Duration := 0 }, ?_, rfl⟩
    simp [iterResp6, addStep, analyzeStepResp, h, h1]

/-! ### Claim theorems -/

/-- C1: for every run of the orchestration loop, if iterations `1..k-1`
produce verifications failing the stop condition and iteration
`k ≤ max_iterations` produces a Verification with `is_complete` true and
confidence at or above the configured threshold (0.7), the loop stops at
iteration `k` (exactly `5k` steps are recorded) and the returned AgentResult
has `need_more_info = false`. -/
theorem c1_stop_on_satisfactory_iteration (env : Env) (convs : ConvMap) (req : AgentRequest)
    (k : Nat) (hk1 : 1 ≤ k) (hk : k ≤ req.MaxIterations)
    (hplan : ∀ i, i < k → (traceV env req.Query i).isSome = true)
    (hfail : ∀ i, i + 1 < k → stopAtV (traceV env req.Query i) = false)
    (hstop : stopAtV (traceV env req.Query (k - 1)) = true) :
    (executeAgenticLoop env convs req).1.NeedMoreInfo = false ∧
    (executeAgenticLoop env convs req).1.Steps.length = 5 * k := by
  obtain ⟨c1, c2, c3⟩ := agentLoopAux_stop env k hk1 req.MaxIterations req.Query
    (initResponse req) "" 0 hk hplan hfail hstop
  simp only [executeAgenticLoop, c1, Bool.false_eq_true, reduceIte]
  refine ⟨c2, ?_⟩
  rw [c3]
  simp [initResponse]

/-- C1 witness: a single-iteration run whose verifier reports complete with
confidence 0.9 stops at iteration 1 with `need_more_info = false`. -/
theorem c1_witness :
    (executeAgenticLoop envC1w [] reqKYC1).1.NeedMoreInfo = false ∧
    (executeAgenticLoop envC1w [] reqKYC1).1.Steps.length = 5 * 1 :=
  c1_stop_on_satisfactory_iteration envC1w [] reqKYC1 1 (by decide) (by decide)
    (by intro i hi
        have h0 : i = 0 := by omega
        subst h0
        decide)
    (by intro i hi
        exact absurd hi (by omega))
    (by decide)

/-- C2: for every run in which no iteration satisfies the stop condition
(and no plan phase hard-fails), after `max_iterations` the returned
AgentResult has `need_more_info = true` and its `follow_up_question` equals
the literal template concatenated with the last verification's missing-info
text, and is therefore non-empty. -/
theorem c2_exhaustion_follow_up (env : Env) (convs : ConvMap) (req : AgentRequest)
    (hmax : 1 ≤ req.MaxIterations)
    (hplan : ∀ i, i < req.MaxIterations → (traceV env req.Query i).isSome = true)
    (hfail : ∀ i, i < req.MaxIterations → stopAtV (traceV env req.Query i) = false) :
    (executeAgenticLoop env convs req).1.NeedMoreInfo = true ∧
    (executeAgenticLoop env convs req).1.FollowUpQ =
      "I need more information to answer completely. Can you provide more context about: " ++
        missingAtV (traceV env req.Query (req.MaxIterations - 1)) ∧
    (executeAgenticLoop env convs req).1.FollowUpQ ≠ "" := by
  obtain ⟨c1, c2, c3, _⟩ := agentLoopAux_exhaust env req.MaxIterations hmax req.Query
    (initResponse req) "" 0 hplan hfail
  simp only [executeAgenticLoop, c1, Bool.false_eq_true, reduceIte]
  refine ⟨c2, c3, ?_⟩
  rw [c3]
  exact followUpTemplate_append_ne _

/-- C2 witness: two iterations of an always-unsatisfied verifier with
missing info "budget limits" end with `need_more_info = true` and the exact
follow-up question. -/
theorem c2_witness :
    (executeAgenticLoop envC2w [] reqQ0Max2).1.NeedMoreInfo = true ∧
    (executeAgenticLoop envC2w [] reqQ0Max2).1.FollowUpQ =
      "I need more information to answer completely. Can you provide more context about: " ++
        missingAtV (traceV envC2w reqQ0Max2.Query (reqQ0Max2.MaxIterations - 1)) ∧
    (executeAgenticLoop envC2w [] reqQ0Max2).1.FollowUpQ ≠ "" :=
  c2_exhaustion_follow_up envC2w [] reqQ0Max2 (by decide)
    (by intro i hi
        have h2 : i < 2 := by simpa [reqQ0Max2] using hi
        have h01 : i = 0 ∨ i = 1 := by omega
        rcases h01 with rfl | rfl <;> decide)
    (by intro i hi
        have h2 : i < 2 := by simpa [reqQ0Max2] using hi
        have h01 : i = 0 ∨ i = 1 := by omega
        rcases h01 with rfl | rfl <;> decide)

/-- C3: for every Action list of length N, `executeActions` returns exactly
N results in the same order (result `i` is computed from action `i` alone,
so one action's failure never prevents the remaining actions from
executing); a `call_tool` action with no tool name yields an in-band failed
result rather than raising, and an action of any unrecognized kind yields an
in-band failed result with `status = failed` and the message
"unknown action type: <kind>". -/
theorem c3_execute_actions_total (env : Env) (actions : List Action) (resp : AgentResponse) :
    (executeActions env actions resp).1.length = actions.length ∧
    (executeActions env actions resp).1 = actions.map (execOne env) ∧
    (∀ a : Action, a.Type' = "call_tool" → goStr (rlookup a.Parameters "tool") = "" →
      execOne env a = [("action_type", .str "call_tool"), ("error", .str "tool name required"),
        ("status", .str "failed")]) ∧
    (∀ a : Action, a.Type' ≠ "search_rag" → a.Type' ≠ "call_tool" → a.Type' ≠ "synthesize" →
      execOne env a = [("action_type", .str a.Type'),
        ("error", .str ("unknown action type: " ++ a.Type')), ("status", .str "failed")]) := by
  refine ⟨?_, rfl, ?_, ?_⟩
  · simp [executeActions, execResults]
  · intro a h1 h2
    simp [execOne, h1, executeCallTool, h2, rmapSet]
  · intro a h1 h2 h3
    simp [execOne, h1, h2, h3, rmapSet]

/-- C3 witness: a three-action list (unknown kind, tool call without a name,
deferred synthesis) yields exactly three results, with the two failures
in-band. -/
theorem c3_witness :
    (executeActions envC1w actsC3 (initResponse reqKYC1)).1.length = actsC3.length ∧
    execOne envC1w actNoTool = [("action_type", .str "call_tool"),
      ("error", .str "tool name required"), ("status", .str "failed")] ∧
    execOne envC1w actUnknown = [("action_type", .str "frobnicate"),
      ("error", .str "unknown action type: frobnicate"), ("status", .str "failed")] :=
  ⟨(c3_execute_actions_total envC1w actsC3 (initResponse reqKYC1)).1,
   (c3_execute_actions_total envC1w actsC3 (initResponse reqKYC1)).2.2.1 actNoTool rfl rfl,
   by
     have h := (c3_execute_actions_total envC1w actsC3 (initResponse reqKYC1)).2.2.2 actUnknown
       (by decide) (by decide) (by decide)
     simpa [actUnknown] using h⟩

/-- C5: whenever the planning response arrives as text that (after code-fence
stripping and trimming) fails to decode as JSON, `createExecutionPlan`
returns the single-action default plan: one `search_rag` retrieve against
the default partition `regulatory_docs` with the original query and
`top_k = 5`, and reasoning exactly "Default plan: search knowledge base". -/
theorem c5_default_plan_on_decode_failure (env : Env) (query s : String)
    (hresp : env.planResp query = .text s)
    (hdec : env.unmarshalPlan (cleanModelJson s) (initialPlan query) = none) :
    createExecutionPlan env query = .ok (defaultPlanFor query) ∧
    defaultPlanFor query =
      { OriginalQuery := query
        RewrittenQueries := [query]
        Actions := [{ Type' := "search_rag"
                      Description := "Search knowledge base"
                      Parameters := [("query", .str query),
                        ("collection", .str "regulatory_docs"), ("top_k", .int 5)] }]
        Reasoning := "Default plan: search knowledge base" } := by
  refine ⟨?_, rfl⟩
  simp [createExecutionPlan, hresp, hdec]

/-- C5 witness: a free-text (non-JSON) planning response produces exactly
the default plan. -/
theorem c5_witness :
    createExecutionPlan envC5w "What are the KYC requirements?" =
      .ok (defaultPlanFor "What are the KYC requirements?") :=
  (c5_default_plan_on_decode_failure envC5w "What are the KYC requirements?"
    "here is my plan in free text" rfl rfl).1

/-- C9: `verifyAnswer` returns exactly `⟨true, 0.5, ""⟩` on a transport
failure of the text-completion call and exactly `⟨true, 0.7, ""⟩` when a
text response arrives but fails to decode; the two fallback verifications
are distinct constants. -/
theorem c9_verifier_fallback_constants (env : Env) (q a : String) (rs : List RMap) :
    (∀ msg, env.verifyResp q a = .transportErr msg →
      verifyAnswer env q a rs = { IsComplete := true, Confidence := mkRat 1 2, MissingInfo := "" }) ∧
    (∀ s, env.verifyResp q a = .text s →
      env.unmarshalVerif (cleanModelJson s)
        { IsComplete := false, Confidence := 0, MissingInfo := "" } = none →
      verifyAnswer env q a rs = { IsComplete := true, Confidence := mkRat 7 10, MissingInfo := "" }) ∧
    mkRat 1 2 ≠ mkRat 7 10 ∧
    ({ IsComplete := true, Confidence := mkRat 1 2, MissingInfo := "" } : Verification) ≠
      { IsComplete := true, Confidence := mkRat 7 10, MissingInfo := "" } := by
  refine ⟨?_, ?_, by decide, by decide⟩
  · intro msg h
    simp [verifyAnswer, h]
  · intro s h hu
    simp [verifyAnswer, h, hu]

/-- C9 witness: the two fallback paths evaluated at concrete environments. -/
theorem c9_witness :
    verifyAnswer envC9t "q" "a" [] =
      { IsComplete := true, Confidence := mkRat 1 2, MissingInfo := "" } ∧
    verifyAnswer envC9p "q" "a" [] =
      { IsComplete := true, Confidence := mkRat 7 10, MissingInfo := "" } :=
  ⟨(c9_verifier_fallback_constants envC9t "q" "a" []).1 "connection refused" rfl,
   (c9_verifier_fallback_constants envC9p "q" "a" []).2.1
     "free text, not the expected JSON shape" rfl rfl⟩

/-- C10: a transport failure of the text-completion call during the Analyze
phase is absorbed in-band: `analyzeQuery` returns the static string
"Unable to analyze query", the analyze step is still recorded first with
`Success = true`, and the iteration proceeds to the Planning phase (a plan
step follows) rather than aborting the loop. -/
theorem c10_analyze_failure_absorbed (env : Env) (convs : ConvMap) (req : AgentRequest)
    (msg : String) (ha : env.analyzeResp req.Query = .transportErr msg)
    (hm : 1 ≤ req.MaxIterations) :
    analyzeQuery env req.Query = "Unable to analyze query" ∧
    (executeAgenticLoop env convs req).1.Steps.get? 0 = some
      { StepNumber := 1, Type' := "analyze", Description := "Analyze user query and intent",
        Action := "", Result := "Unable to analyze query", Success := true, Duration := 0 } ∧
    ∃ st : AgentStep, (executeAgenticLoop env convs req).1.Steps.get? 1 = some st ∧
      st.Type' = "plan" := by
  have hA : analyzeQuery env req.Query = "Unable to analyze query" := by
    simp [analyzeQuery, ha]
  have hsteps : (executeAgenticLoop env convs req).1.Steps =
      (agentLoopAux env req.MaxIterations req.Query (initResponse req) "" 0).resp.Steps := by
    unfold executeAgenticLoop
    cases hhs : (agentLoopAux env req.MaxIterations req.Query (initResponse req) "" 0).hardStop <;>
      simp [hhs]
  obtain ⟨m, hM⟩ : ∃ m, req.MaxIterations = m + 1 := ⟨req.MaxIterations - 1, by omega⟩
  refine ⟨hA, ?_⟩
  rw [hsteps, hM]
  cases hc : createExecutionPlan env req.Query with
  | error e =>
      simp only [agentLoopAux, hc]
      constructor
      · simp [addStep, analyzeStepResp, initResponse, hA]
      · refine ⟨{ StepNumber := 2
                  Type' := "plan"
                  Description := "Create execution plan"
                  Action := ""
                  Result := ""
                  Success := false
                  Duration := 0 }, ?_, rfl⟩
        simp [addStep, analyzeStepResp, initResponse]
  | ok plan =>
      have hfirst := iterResp6_firstSteps env req.Query (initResponse req) plan rfl
      rw [hA] at hfirst
      have hlen : (iterResp6 env req.Query (initResponse req) plan).Steps.length = 5 := by
        have := (iterResp6_fields env req.Query (initResponse req) plan).1
        simpa [initResponse] using this
      simp only [agentLoopAux, hc]
      by_cases hs : stopCond (iterVerif env req.Query plan)
      · simp only [hs, if_true]
        exact ⟨hfirst.1, hfirst.2⟩
      · by_cases hm0 : m = 0
        · simp only [hs, hm0, Bool.false_eq_true, reduceIte, if_true]
          exact ⟨hfirst.1, hfirst.2⟩
        · simp only [hs, hm0, Bool.false_eq_true, reduceIte, if_neg]
          obtain ⟨t, ht⟩ := agentLoopAux_steps_extend env m
            (enhanceQueryForIteration req.Query (iterVerif env req.Query plan).MissingInfo)
            (iterResp6 env req.Query (initResponse req) plan)
            (iterAns env req.Query plan) (iterVerif env req.Query plan).Confidence
          rw [ht]
          constructor
          · rw [List.get?_append (by rw [hlen]; omega)]
            exact hfirst.1
          · obtain ⟨st, hst, hty⟩ := hfirst.2
            refine ⟨st, ?_, hty⟩
            rw [List.get?_append (by rw [hlen]; omega)]
            exact hst

/-- C10 witness: with the analyze call failing at transport level and one
iteration, the first step is the successful analyze record with the static
fallback text and a plan step follows. -/
theorem c10_witness :
    analyzeQuery envC10w reqKYC1.Query = "Unable to analyze query" ∧
    (executeAgenticLoop envC10w [] reqKYC1).1.Steps.get? 0 = some
      { StepNumber := 1, Type' := "analyze", Description := "Analyze user query and intent",
        Action := "", Result := "Unable to analyze query", Success := true, Duration := 0 } ∧
    ∃ st : AgentStep, (executeAgenticLoop envC10w [] reqKYC1).1.Steps.get? 1 = some st ∧
      st.Type' = "plan" :=
  c10_analyze_failure_absorbed envC10w [] reqKYC1 "network unreachable" rfl (by decide)

/-- C4 counterexample: the code does not clamp a decoded confidence.  With a
verifier response that decodes to a verification reporting confidence 2
(as `json.Unmarshal` of a body carrying `confidence: 2` would), the
Verification produced by `verifyAnswer` has confidence 2, outside `[0,1]`. -/
theorem c4_counterexample :
    (verifyAnswer envC4x "q" "a" []).Confidence = 2 ∧
    ¬ (verifyAnswer envC4x "q" "a" []).Confidence ≤ 1 :=
  ⟨by decide, by decide⟩

/-- C4 (amended): provided every verification the decoder produces reports a
confidence in `[0,1]` (the code passes the decoded value through unclamped),
every Verification returned by the verifier and the confidence of the
AgentResult returned by the loop lie in `[0,1]`; both fallback constants
0.5 and 0.7 are in range, and a hard-stopped run reports confidence 0. -/
theorem c4_confidence_bounds_amended (env : Env) (convs : ConvMap) (req : AgentRequest)
    (hU : ∀ s v0 v, env.unmarshalVerif s v0 = some v → 0 ≤ v.Confidence ∧ v.Confidence ≤ 1) :
    (∀ (q a : String) (rs : List RMap),
      0 ≤ (verifyAnswer env q a rs).Confidence ∧ (verifyAnswer env q a rs).Confidence ≤ 1) ∧
    (0 ≤ (executeAgenticLoop env convs req).1.Confidence ∧
      (executeAgenticLoop env convs req).1.Confidence ≤ 1) := by
  refine ⟨fun q a rs => verifyAnswer_conf_bound env hU q a rs, ?_⟩
  have hb := agentLoopAux_conf_bound env hU req.MaxIterations req.Query (initResponse req) "" 0
    (by norm_num) (by norm_num)
  unfold executeAgenticLoop
  cases hhs : (agentLoopAux env req.MaxIterations req.Query (initResponse req) "" 0).hardStop with
  | false =>
      simp only [hhs, Bool.false_eq_true, reduceIte]
      exact hb
  | true =>
      simp only [hhs, if_true]
      have hc := (agentLoopAux_fields env req.MaxIterations req.Query (initResponse req) "" 0).2.1
      rw [hc]
      constructor <;> norm_num [initResponse]

/-- C4 witness: with a decoder that only ever reports confidence 0.9, both
the verifier output and the loop result stay in `[0,1]`. -/
theorem c4_witness :
    (0 ≤ (verifyAnswer envC1w "q" "a" []).Confidence ∧
      (verifyAnswer envC1w "q" "a" []).Confidence ≤ 1) ∧
    (0 ≤ (executeAgenticLoop envC1w [] reqKYC1).1.Confidence ∧
      (executeAgenticLoop envC1w [] reqKYC1).1.Confidence ≤ 1) := by
  have hU : ∀ s v0 v, envC1w.unmarshalVerif s v0 = some v →
      0 ≤ v.Confidence ∧ v.Confidence ≤ 1 := by
    intro s v0 v hsv
    simp only [envC1w, baseEnv] at hsv
    by_cases hs : s = "VERDICT"
    · rw [if_pos hs] at hsv
      injection hsv with hv
      rw [← hv]
      exact ⟨show (0 : ℚ) ≤ mkRat 9 10 by decide, show (mkRat 9 10 : ℚ) ≤ 1 by decide⟩
    · rw [if_neg hs] at hsv
      exact absurd hsv (by simp)
  exact ⟨(c4_confidence_bounds_amended envC1w [] reqKYC1 hU).1 "q" "a" [],
         (c4_confidence_bounds_amended envC1w [] reqKYC1 hU).2⟩

/-- C6 counterexample: a run whose first iteration fails verification and
whose second iteration hard-stops at plan generation records 7 steps
(`7 / 5 = 1`) but reports `Iterations = 0`, because the early `return`
skips the `Iterations` assignment. -/
theorem c6_counterexample :
    (executeAgenticLoop envC6x [] reqQ0Max2).1.Steps.length = 7 ∧
    (executeAgenticLoop envC6x [] reqQ0Max2).1.Iterations = 0 ∧
    (executeAgenticLoop envC6x [] reqQ0Max2).1.Iterations ≠
      (executeAgenticLoop envC6x [] reqQ0Max2).1.Steps.length / 5 :=
  ⟨by decide, by decide, by decide⟩

/-- C6 (amended): for every run that is not aborted by a plan-generation
hard stop, the reported iteration count equals the number of StepRecords
integer-divided by 5; a hard-stopped run instead reports `Iterations = 0`
(the early return skips the assignment), whatever its step count. -/
theorem c6_iterations_quotient_amended (env : Env) (convs : ConvMap) (req : AgentRequest) :
    (loopHardStop env req = false →
      (executeAgenticLoop env convs req).1.Iterations =
        (executeAgenticLoop env convs req).1.Steps.length / 5) ∧
    (loopHardStop env req = true →
      (executeAgenticLoop env convs req).1.Iterations = 0) := by
  constructor
  · intro h
    simp only [loopHardStop] at h
    unfold executeAgenticLoop
    simp only [h, Bool.false_eq_true, reduceIte]
  · intro h
    simp only [loopHardStop] at h
    unfold executeAgenticLoop
    simp only [h, if_true]
    have hc := (agentLoopAux_fields env req.MaxIterations req.Query (initResponse req) "" 0).1
    rw [hc]
    rfl

/-- C6 witness: the amended statement instantiated on a completed run
(iterations = steps/5) and on a hard-stopped run (iterations = 0). -/
theorem c6_witness :
    (executeAgenticLoop envC1w [] reqKYC1).1.Iterations =
      (executeAgenticLoop envC1w [] reqKYC1).1.Steps.length / 5 ∧
    (executeAgenticLoop envC6x [] reqQ0Max2).1.Iterations = 0 :=
  ⟨(c6_iterations_quotient_amended envC1w [] reqKYC1).1 (by decide),
   (c6_iterations_quotient_amended envC6x [] reqQ0Max2).2 (by decide)⟩

/-- C7 counterexample: after a two-iteration run that never satisfies the
verifier (missing info "budget limits"), the stored user message is the
query as rewritten between iterations, not the submitted query "q0". -/
theorem c7_counterexample :
    lastTwoMessages (executeAgenticLoop envC7x [] reqQ0Max2).2 "C1" =
      some [{ Role := "user", Content := "q0 (specifically about: budget limits)" },
            { Role := "assistant", Content := "draft answer" }] ∧
    "q0 (specifically about: budget limits)" ≠ reqQ0Max2.Query :=
  ⟨by decide, by decide⟩

/-- C7 (amended): after every run that completes without a plan-generation
hard stop, the (final working query, final answer) pair is appended to the
Conversation Store, so the conversation's last two entries are, in order, a
user message whose content is the query as last rewritten by cross-iteration
enhancement and an assistant message whose content is the final answer; the
user content equals the submitted query when the run stops in its first
iteration.  A hard-stopped run stores nothing. -/
theorem c7_conversation_store_amended (env : Env) (convs : ConvMap) (req : AgentRequest) :
    (loopHardStop env req = false →
      (executeAgenticLoop env convs req).2 =
        storeConversation convs req.ConversationID (loopFinalQuery env req)
          (loopFinalAnswer env req) ∧
      lastTwoMessages (executeAgenticLoop env convs req).2 req.ConversationID =
        some [{ Role := "user", Content := loopFinalQuery env req },
              { Role := "assistant", Content := loopFinalAnswer env req }]) ∧
    (loopHardStop env req = true → (executeAgenticLoop env convs req).2 = convs) ∧
    (stopAtV (traceV env req.Query 0) = true → loopFinalQuery env req = req.Query) := by
  refine ⟨?_, ?_, ?_⟩
  · intro h
    simp only [loopHardStop] at h
    unfold executeAgenticLoop
    simp only [h, Bool.false_eq_true, reduceIte]
    exact ⟨rfl, storeConversation_lastTwo convs req.ConversationID _ _⟩
  · intro h
    simp only [loopHardStop] at h
    unfold executeAgenticLoop
    simp only [h, if_true]
  · intro h
    unfold loopFinalQuery
    exact agentLoopAux_stop1_finalQuery env req.MaxIterations req.Query (initResponse req) "" 0 h

/-- C7 witness: the amended statement instantiated on a completed
multi-iteration run, a hard-stopped run, and a run stopping at iteration 1. -/
theorem c7_witness :
    lastTwoMessages (executeAgenticLoop envC7x [] reqQ0Max2).2 reqQ0Max2.ConversationID =
      some [{ Role := "user", Content := loopFinalQuery envC7x reqQ0Max2 },
            { Role := "assistant", Content := loopFinalAnswer envC7x reqQ0Max2 }] ∧
    (executeAgenticLoop envC6x [] reqQ0Max2).2 = [] ∧
    loopFinalQuery envC1w reqKYC1 = reqKYC1.Query :=
  ⟨((c7_conversation_store_amended envC7x [] reqQ0Max2).1 (by decide)).2,
   (c7_conversation_store_amended envC6x [] reqQ0Max2).2.1 (by decide),
   (c7_conversation_store_amended envC1w [] reqKYC1).2.2 (by decide)⟩

/-- Appending the non-empty parenthetical suffix changes the query. -/
theorem enhanceQuery_ne (q m : String) (hm : m ≠ "") :
    enhanceQueryForIteration q m ≠ q := by
  unfold enhanceQueryForIteration
  rw [if_neg hm]
  intro heq
  have h2 := congrArg String.length heq
  rw [String.length_append, String.length_append, String.length_append] at h2
  have hs : (" (specifically about: " : String).length = 22 := by decide
  have hp : (")" : String).length = 1 := by decide
  rw [hs, hp] at h2
  omega

/-- C8 counterexample: with a verifier that fails with an EMPTY missing-info
text, the query is not rewritten between the two unsuccessful iterations:
iteration 2's planning query equals iteration 1's, so the loop repeats an
identical failed planning call (the run does perform both iterations: 10
steps). -/
theorem c8_counterexample :
    (traceV envC8x "q0" 0).isSome = true ∧
    stopAtV (traceV envC8x "q0" 0) = false ∧
    traceQ envC8x "q0" 1 = traceQ envC8x "q0" 0 ∧
    loopFinalQuery envC8x reqQ0Max2 = "q0" ∧
    (executeAgenticLoop envC8x [] reqQ0Max2).1.Steps.length = 10 :=
  ⟨by decide, by decide, by decide, by decide, by decide⟩

/-- C8 (amended): between two consecutive unsuccessful iterations, when the
verifier's missing-info text is non-empty the query fed into the next
Planning phase is the previous query with the missing-info text appended as
a parenthetical suffix (and therefore differs from the previous query); when
the missing-info text is empty the query is unchanged and the planning call
is repeated identically. -/
theorem c8_query_rewrite_amended (env : Env) (q : String) (v : Verification)
    (h : traceV env q 0 = some v) :
    (v.MissingInfo ≠ "" →
      nextQuery env q = q ++ " (specifically about: " ++ v.MissingInfo ++ ")" ∧
      nextQuery env q ≠ q) ∧
    (v.MissingInfo = "" → nextQuery env q = q) := by
  cases hc : createExecutionPlan env q with
  | error e => simp [traceV, traceQ, phasesAt, hc] at h
  | ok plan =>
      obtain ⟨hv0, hq1⟩ := phases_ok_facts env q plan hc
      rw [hv0] at h
      injection h with h
      subst h
      constructor
      · intro hne
        rw [hq1]
        constructor
        · simp [enhanceQueryForIteration, hne]
        · exact enhanceQuery_ne _ _ hne
      · intro he
        rw [hq1]
        simp [enhanceQueryForIteration, he]

/-- C8 witness: the amended statement instantiated on a verifier with
missing info "budget limits" (query rewritten with the suffix) and on one
with empty missing info (query unchanged). -/
theorem c8_witness :
    nextQuery envC2w "q0" = "q0" ++ " (specifically about: " ++ "budget limits" ++ ")" ∧
    nextQuery envC2w "q0" ≠ "q0" ∧
    nextQuery envC8x "q0" = "q0" := by
  have h2 := c8_query_rewrite_amended envC2w "q0"
    { IsComplete := false, Confidence := mkRat 3 10, MissingInfo := "budget limits" } (by decide)
  have h8 := c8_query_rewrite_amended envC8x "q0"
    { IsComplete := false, Confidence := mkRat 1 10, MissingInfo := "" } (by decide)
  exact ⟨(h2.1 (by decide)).1, (h2.1 (by decide)).2, h8.2 rfl⟩

end Orchestrator
